import Mathlib

/-!
Verification of the CodeQL database lookup core (`src/codeql/db_lookup.py`).

The module is shallowly embedded: the filesystem is a map from a path to
either an I/O failure or the file's line sequence, the external CSV row
parser (`parse_csv_row`, an external collaborator returning a populated
record or an absent result) is an arbitrary function into `Option`, and
the source archive reader is an arbitrary function from archive path and
entry key to the entry's text.  Python exceptions are modelled with
`Except`: `CodeQLError` carries its message string, and an unparsable
`int()` argument is a `valueError`.
-/

namespace Vulnhalla

/-- Python `s.replace(chr(34), "")`: remove every double-quote character. -/
def stripQuotes (s : String) : String :=
  String.mk (s.data.filter (fun c => c ≠ '"'))

/-- Python substring test `needle in haystack`. -/
def strContains (haystack needle : String) : Bool :=
  decide (needle.data <:+: haystack.data)

/-- Python `s.strip()`: remove leading and trailing whitespace. -/
def pyStrip (s : String) : String :=
  String.mk (((s.data.dropWhile Char.isWhitespace).reverse.dropWhile Char.isWhitespace).reverse)

/-- Worker for `pySplit`; the fuel is an upper bound on the number of steps
and is always sufficient at the call site. -/
def pySplitGo (sep : List Char) : Nat → List Char → List Char → List (List Char)
  | _, acc, [] => [acc.reverse]
  | 0, acc, rest => [acc.reverse ++ rest]
  | fuel + 1, acc, c :: cs =>
    if decide (sep <+: (c :: cs)) then
      acc.reverse :: pySplitGo sep fuel [] ((c :: cs).drop sep.length)
    else
      pySplitGo sep fuel (c :: acc) cs

/-- Python `s.split(sep)` for a non-empty separator: cut at every
occurrence of `sep`, keeping empty pieces. -/
def pySplit (s sep : String) : List String :=
  if sep.data.isEmpty then [s]
  else (pySplitGo sep.data (s.data.length + 1) [] s.data).map String.mk

/-- A non-empty all-digit character list read as a decimal number. -/
def parseDigits (ds : List Char) : Option Nat :=
  if ds ≠ [] ∧ ds.all Char.isDigit then
    some (ds.foldl (fun a c => a * 10 + (c.toNat - 48)) 0)
  else none

/-- Python `int(s)` on a decimal string literal: surrounding whitespace and
an optional sign are accepted; `none` models a raised `ValueError`. -/
def pyInt? (s : String) : Option Int :=
  match (pyStrip s).data with
  | '-' :: ds => (parseDigits ds).map (fun n => -(n : Int))
  | '+' :: ds => (parseDigits ds).map (fun n => (n : Int))
  | ds => (parseDigits ds).map (fun n => (n : Int))

/-- Python `sep.join(parts)`. -/
def pyJoin (sep : String) : List String → String
  | [] => ""
  | [x] => x
  | x :: y :: rest => x ++ sep ++ pyJoin sep (y :: rest)

/-- Python `s.split("::")[-1]`: the trailing segment after the last `::`. -/
def lastSegment (s : String) : String :=
  (pySplit s "::").getLastD s

/-- Python `Path(a) / b` for a relative component `b`. -/
def pathJoin (a b : String) : String :=
  a ++ "/" ++ b

/-- The three I/O failure conditions a table open/read can raise. -/
inductive FSErr : Type
  | fileNotFound
  | permissionDenied
  | osError
deriving DecidableEq, Repr

/-- A raised Python exception: a `CodeQLError` with its message, or a
`ValueError` from `int()` with the offending string. -/
inductive PyErr : Type
  | codeQLError (msg : String)
  | valueError (s : String)
deriving DecidableEq, Repr

/-- The filesystem: a path yields an I/O failure or the file's lines. -/
def FS : Type := String → Except FSErr (List String)

instance instDecEqExcept {e a : Type} [DecidableEq e] [DecidableEq a] :
    DecidableEq (Except e a) := fun x y =>
  match x, y with
  | .error u, .error v =>
    if h : u = v then isTrue (by rw [h]) else isFalse (fun hc => by cases hc; exact h rfl)
  | .ok u, .ok v =>
    if h : u = v then isTrue (by rw [h]) else isFalse (fun hc => by cases hc; exact h rfl)
  | .error _, .ok _ => isFalse (fun hc => by cases hc)
  | .ok _, .error _ => isFalse (fun hc => by cases hc)

/-- One row of FunctionTree.csv as produced by the row parser. -/
structure FunctionRow : Type where
  function_name : String
  file : String
  start_line : String
  function_id : String
  end_line : String
  caller_id : String
deriving DecidableEq, Repr

/-- One row of Macros.csv as produced by the row parser. -/
structure MacroRow : Type where
  macro_name : String
  body : String
deriving DecidableEq, Repr

/-- One row of GlobalVars.csv as produced by the row parser. -/
structure GlobalVarRow : Type where
  global_var_name : String
  file : String
  start_line : String
  end_line : String
deriving DecidableEq, Repr

/-- One row of Classes.csv as produced by the row parser. -/
structure ClassRow : Type where
  type : String
  class_name : String
  file : String
  start_line : String
  end_line : String
  simple_name : String
deriving DecidableEq, Repr

/-- `CodeQLDBLookup._convert_csv_file_error`: message of the `CodeQLError`
built from an I/O failure, the file path and the file-type label. -/
def convert_csv_file_error (e : FSErr) (file_path : String) (file_type_name : String) : String :=
  match e with
  | .fileNotFound => file_type_name ++ " not found: " ++ file_path
  | .permissionDenied => "Permission denied reading " ++ file_type_name ++ ": " ++ file_path
  | .osError => "OS error while reading " ++ file_type_name ++ ": " ++ file_path

/-- The scan loop of `get_function_by_line` over the yielded lines. -/
def get_function_by_line_scan (parse : String → Option FunctionRow)
    (file : String) (line : Int) : List String → Except PyErr (Option FunctionRow)
  | [] => .ok none
  | row :: rest =>
    if strContains row file then
      match parse row with
      | none => get_function_by_line_scan parse file line rest
      | some d =>
        if d.start_line ≠ "" ∧ d.end_line ≠ "" then
          match pyInt? d.start_line with
          | none => .error (.valueError d.start_line)
          | some s =>
            match pyInt? d.end_line with
            | none => .error (.valueError d.end_line)
            | some e =>
              if s ≤ line ∧ line ≤ e then .ok (some d)
              else get_function_by_line_scan parse file line rest
        else get_function_by_line_scan parse file line rest
    else get_function_by_line_scan parse file line rest

/-- `CodeQLDBLookup.get_function_by_line`. -/
def get_function_by_line (fs : FS) (parse : String → Option FunctionRow)
    (function_tree_file file : String) (line : Int) : Except PyErr (Option FunctionRow) :=
  match fs function_tree_file with
  | .error e =>
    .error (.codeQLError (convert_csv_file_error e function_tree_file "Function tree file"))
  | .ok lines => get_function_by_line_scan parse file line lines

/-- The inner file scan of `get_function_by_name` for one known function id. -/
def get_function_by_name_scan (parse : String → Option FunctionRow)
    (function_id function_name_only : String) (less_strict : Bool) :
    List String → Option FunctionRow
  | [] => none
  | row :: rest =>
    if strContains row function_id then
      match parse row with
      | none => get_function_by_name_scan parse function_id function_name_only less_strict rest
      | some d =>
        if stripQuotes d.function_name == function_name_only
            || (less_strict && strContains (stripQuotes d.function_name) function_name_only) then
          some d
        else get_function_by_name_scan parse function_id function_name_only less_strict rest
    else get_function_by_name_scan parse function_id function_name_only less_strict rest

/-- The outer loop of `get_function_by_name` over the known functions;
each iteration re-opens the function tree file. -/
def get_function_by_name_loop {α : Type} (fs : FS) (parse : String → Option FunctionRow)
    (function_tree_file function_name_only : String) (less_strict : Bool)
    (fid : α → String) : List α → Except PyErr (Option (FunctionRow × α))
  | [] => .ok none
  | current :: rest =>
    match fs function_tree_file with
    | .error e =>
      .error (.codeQLError (convert_csv_file_error e function_tree_file "Function tree file"))
    | .ok lines =>
      match get_function_by_name_scan parse (fid current) function_name_only less_strict lines with
      | some d => .ok (some (d, current))
      | none =>
        get_function_by_name_loop fs parse function_tree_file function_name_only less_strict fid rest

/-- Not-found message of `get_function_by_name`. -/
def function_not_found_msg (function_name : String) : String :=
  "Function '" ++ function_name ++ "' not found. Make sure you're using the correct tool and args."

/-- `get_function_by_name` invoked with `less_strict=True` (the final pass). -/
def get_function_by_name_final {α : Type} (fs : FS) (parse : String → Option FunctionRow)
    (function_tree_file function_name : String) (fid : α → String) (all_function : List α) :
    Except PyErr ((String ⊕ FunctionRow) × Option α) :=
  match get_function_by_name_loop fs parse function_tree_file
      (lastSegment function_name) true fid all_function with
  | .error e => .error e
  | .ok (some (d, cur)) => .ok (.inr d, some cur)
  | .ok none => .ok (.inl (function_not_found_msg function_name), none)

/-- `CodeQLDBLookup.get_function_by_name`; the known functions are any
values from which a `function_id` string can be read off. -/
def get_function_by_name {α : Type} (fs : FS) (parse : String → Option FunctionRow)
    (function_tree_file function_name : String) (fid : α → String) (all_function : List α)
    (less_strict : Bool) : Except PyErr ((String ⊕ FunctionRow) × Option α) :=
  if less_strict then
    get_function_by_name_final fs parse function_tree_file function_name fid all_function
  else
    match get_function_by_name_loop fs parse function_tree_file
        (lastSegment function_name) false fid all_function with
    | .error e => .error e
    | .ok (some (d, cur)) => .ok (.inr d, some cur)
    | .ok none =>
      get_function_by_name_final fs parse function_tree_file function_name fid all_function

/-- Not-found message of ` get_macro`. -/
def macro_not_found_msg (macro_name : String) : String :=
  "Macro '" ++ macro_name ++ "' not found. Make sure you're using the correct tool with correct args."

/-- The scan loop of ` get_macro` over the lines of Macros.csv. -/
def get_macro_scan (parse : String → Option MacroRow) (macro_name : String)
    (less_strict : Bool) : List String → Option MacroRow
  | [] => none
  | row :: rest =>
    if strContains row macro_name then
      match parse row with
      | none => get_macro_scan parse macro_name less_strict rest
      | some d =>
        if stripQuotes d.macro_name == macro_name
            || (less_strict && strContains (stripQuotes d.macro_name) macro_name) then
          some d
        else get_macro_scan parse macro_name less_strict rest
    else get_macro_scan parse macro_name less_strict rest

/-- One pass of ` get_macro`: open Macros.csv and scan it with the phase
selected by `less_strict`. -/
def get_macro_once (fs : FS) (parse : String → Option MacroRow)
    (curr_db macro_name : String) (less_strict : Bool) : Except PyErr (Option MacroRow) :=
  match fs (pathJoin curr_db "Macros.csv") with
  | .error e =>
    .error (.codeQLError
      (convert_csv_file_error e (pathJoin curr_db "Macros.csv") "Macros CSV"))
  | .ok lines => .ok (get_macro_scan parse macro_name less_strict lines)

/-- ` get_macro` invoked with `less_strict=True` (the final pass). -/
def get_macro_final (fs : FS) (parse : String → Option MacroRow)
    (curr_db macro_name : String) : Except PyErr (String ⊕ MacroRow) :=
  match get_macro_once fs parse curr_db macro_name true with
  | .error e => .error e
  | .ok (some d) => .ok (.inr d)
  | .ok none => .ok (.inl (macro_not_found_msg macro_name))

/-- `CodeQLDBLookup. get_macro`. -/
def get_macro (fs : FS) (parse : String → Option MacroRow)
    (curr_db macro_name : String) (less_strict : Bool) : Except PyErr (String ⊕ MacroRow) :=
  if less_strict then get_macro_final fs parse curr_db macro_name
  else
    match get_macro_once fs parse curr_db macro_name false with
    | .error e => .error e
    | .ok (some d) => .ok (.inr d)
    | .ok none => get_macro_final fs parse curr_db macro_name

/-- Not-found message of `get_global_var`. -/
def global_var_not_found_msg (global_var_name : String) : String :=
  "Global var '" ++ global_var_name ++ "' not found. Could it be a macro or should you use another tool?"

/-- The scan loop of `get_global_var`; the search term is the
namespace-stripped trailing segment of the requested name. -/
def get_global_var_scan (parse : String → Option GlobalVarRow) (var_name_only : String)
    (less_strict : Bool) : List String → Option GlobalVarRow
  | [] => none
  | row :: rest =>
    if strContains row var_name_only then
      match parse row with
      | none => get_global_var_scan parse var_name_only less_strict rest
      | some d =>
        if stripQuotes d.global_var_name == var_name_only
            || (less_strict && strContains (stripQuotes d.global_var_name) var_name_only) then
          some d
        else get_global_var_scan parse var_name_only less_strict rest
    else get_global_var_scan parse var_name_only less_strict rest

/-- One pass of `get_global_var`: open GlobalVars.csv and scan it. -/
def get_global_var_once (fs : FS) (parse : String → Option GlobalVarRow)
    (curr_db global_var_name : String) (less_strict : Bool) :
    Except PyErr (Option GlobalVarRow) :=
  match fs (pathJoin curr_db "GlobalVars.csv") with
  | .error e =>
    .error (.codeQLError
      (convert_csv_file_error e (pathJoin curr_db "GlobalVars.csv") "GlobalVars CSV"))
  | .ok lines => .ok (get_global_var_scan parse (lastSegment global_var_name) less_strict lines)

/-- `get_global_var` invoked with `less_strict=True` (the final pass). -/
def get_global_var_final (fs : FS) (parse : String → Option GlobalVarRow)
    (curr_db global_var_name : String) : Except PyErr (String ⊕ GlobalVarRow) :=
  match get_global_var_once fs parse curr_db global_var_name true with
  | .error e => .error e
  | .ok (some d) => .ok (.inr d)
  | .ok none => .ok (.inl (global_var_not_found_msg global_var_name))

/-- `CodeQLDBLookup.get_global_var`. -/
def get_global_var (fs : FS) (parse : String → Option GlobalVarRow)
    (curr_db global_var_name : String) (less_strict : Bool) :
    Except PyErr (String ⊕ GlobalVarRow) :=
  if less_strict then get_global_var_final fs parse curr_db global_var_name
  else
    match get_global_var_once fs parse curr_db global_var_name false with
    | .error e => .error e
    | .ok (some d) => .ok (.inr d)
    | .ok none => get_global_var_final fs parse curr_db global_var_name

/-- Not-found message of `get_class`. -/
def class_not_found_msg (class_name : String) : String :=
  "Class '" ++ class_name ++ "' not found. Could it be a Namespace?"

/-- The scan loop of `get_class`; matches the qualified or the simple name. -/
def get_class_scan (parse : String → Option ClassRow) (class_name_only : String)
    (less_strict : Bool) : List String → Option ClassRow
  | [] => none
  | row :: rest =>
    if strContains row class_name_only then
      match parse row with
      | none => get_class_scan parse class_name_only less_strict rest
      | some d =>
        if stripQuotes d.class_name == class_name_only
            || stripQuotes d.simple_name == class_name_only
            || (less_strict && strContains (stripQuotes d.class_name) class_name_only)
            || (less_strict && strContains (stripQuotes d.simple_name) class_name_only) then
          some d
        else get_class_scan parse class_name_only less_strict rest
    else get_class_scan parse class_name_only less_strict rest

/-- One pass of `get_class`: open Classes.csv and scan it. -/
def get_class_once (fs : FS) (parse : String → Option ClassRow)
    (curr_db class_name : String) (less_strict : Bool) : Except PyErr (Option ClassRow) :=
  match fs (pathJoin curr_db "Classes.csv") with
  | .error e =>
    .error (.codeQLError
      (convert_csv_file_error e (pathJoin curr_db "Classes.csv") "Classes CSV"))
  | .ok lines => .ok (get_class_scan parse (lastSegment class_name) less_strict lines)

/-- `get_class` invoked with `less_strict=True` (the final pass). -/
def get_class_final (fs : FS) (parse : String → Option ClassRow)
    (curr_db class_name : String) : Except PyErr (String ⊕ ClassRow) :=
  match get_class_once fs parse curr_db class_name true with
  | .error e => .error e
  | .ok (some d) => .ok (.inr d)
  | .ok none => .ok (.inl (class_not_found_msg class_name))

/-- `CodeQLDBLookup.get_class`. -/
def get_class (fs : FS) (parse : String → Option ClassRow)
    (curr_db class_name : String) (less_strict : Bool) : Except PyErr (String ⊕ ClassRow) :=
  if less_strict then get_class_final fs parse curr_db class_name
  else
    match get_class_once fs parse curr_db class_name false with
    | .error e => .error e
    | .ok (some d) => .ok (.inr d)
    | .ok none => get_class_final fs parse curr_db class_name

/-- Not-found message of `get_caller_function`. -/
def caller_not_found_msg : String :=
  "Caller function was not found. Make sure you are using the correct tool with the correct args."

/-- The id-matching scan loop of `get_caller_function`. -/
def get_caller_scan (parse : String → Option FunctionRow) (caller_id : String) :
    List String → Option FunctionRow
  | [] => none
  | row :: rest =>
    if strContains row caller_id then
      match parse row with
      | none => get_caller_scan parse caller_id rest
      | some d =>
        if pyStrip (stripQuotes d.function_id) == caller_id then some d
        else get_caller_scan parse caller_id rest
    else get_caller_scan parse caller_id rest

/-- `CodeQLDBLookup.get_caller_function`.  The caller id is quote-stripped
and whitespace-stripped before any matching or decoding. -/
def get_caller_function (fs : FS) (parse : String → Option FunctionRow)
    (function_tree_file : String) (current_function : FunctionRow) :
    Except PyErr (String ⊕ FunctionRow) :=
  let caller_id := pyStrip (stripQuotes current_function.caller_id)
  match fs function_tree_file with
  | .error e =>
    .error (.codeQLError (convert_csv_file_error e function_tree_file "Function tree file"))
  | .ok lines =>
    match get_caller_scan parse caller_id lines with
    | some d => .ok (.inr d)
    | none =>
      match pySplit caller_id ":" with
      | [file_part, line_part] =>
        match pyInt? line_part with
        | none => .error (.valueError line_part)
        | some n =>
          match get_function_by_line fs parse function_tree_file (file_part.drop 1) n with
          | .error e => .error e
          | .ok (some f) => .ok (.inr f)
          | .ok none => .ok (.inl caller_not_found_msg)
      | _ => .ok (.inl caller_not_found_msg)

/-- `CodeQLDBLookup.extract_function_lines_from_db`.  The archive reader
`zipRead` is modelled from the spec: `read_file_lines_from_zip` lives in a
module outside the given sources, and per the spec it reads the entry keyed
by the given file path out of the archive and returns its full text. -/
def extract_function_lines_from_db (zipRead : String → String → String)
    (db_path : String) (current_function : FunctionRow) :
    Except PyErr (String × Int × Int × List String) :=
  let src_zip := pathJoin db_path "src.zip"
  let file_path := (stripQuotes current_function.file).drop 1
  let lines := pySplit (zipRead src_zip file_path) "\n"
  match pyInt? current_function.start_line with
  | none => .error (.valueError current_function.start_line)
  | some s =>
    match pyInt? current_function.end_line with
    | none => .error (.valueError current_function.end_line)
    | some e => .ok (file_path, s, e, lines)

/-- `CodeQLDBLookup.format_numbered_snippet`. -/
def format_numbered_snippet (file_path : String) (start_line : Int)
    (snippet_lines : List String) : String :=
  "file: " ++ file_path ++ "\n" ++
    pyJoin "\n"
      (snippet_lines.enum.map (fun p => toString (start_line + (p.1 : Int)) ++ ": " ++ p.2))

/-!
Spec-side characterizations: each lookup pass as a single declarative
first-match over the table (spec section 4.2), to be compared with the
recursive scans embedded from the code.
-/

/-- One macro-lookup pass as the spec words it: the first row in file order
whose raw text contains the search term and whose quote-stripped stored
name equals it (strict phase) or equals-or-contains it (fallback phase). -/
def macro_first_match (parse : String → Option MacroRow) (macro_name : String)
    (less_strict : Bool) (lines : List String) : Option MacroRow :=
  lines.findSome? (fun row =>
    if strContains row macro_name then
      match parse row with
      | some d =>
        if stripQuotes d.macro_name == macro_name
            || (less_strict && strContains (stripQuotes d.macro_name) macro_name) then
          some d
        else none
      | none => none
    else none)

/-- One global-variable pass as the spec words it (the search term is the
already namespace-stripped name). -/
def global_var_first_match (parse : String → Option GlobalVarRow) (var_name_only : String)
    (less_strict : Bool) (lines : List String) : Option GlobalVarRow :=
  lines.findSome? (fun row =>
    if strContains row var_name_only then
      match parse row with
      | some d =>
        if stripQuotes d.global_var_name == var_name_only
            || (less_strict && strContains (stripQuotes d.global_var_name) var_name_only) then
          some d
        else none
      | none => none
    else none)

/-- One class pass as the spec words it: matches either the fully qualified
class name or the simple name. -/
def class_first_match (parse : String → Option ClassRow) (class_name_only : String)
    (less_strict : Bool) (lines : List String) : Option ClassRow :=
  lines.findSome? (fun row =>
    if strContains row class_name_only then
      match parse row with
      | some d =>
        if stripQuotes d.class_name == class_name_only
            || stripQuotes d.simple_name == class_name_only
            || (less_strict && strContains (stripQuotes d.class_name) class_name_only)
            || (less_strict && strContains (stripQuotes d.simple_name) class_name_only) then
          some d
        else none
      | none => none
    else none)

/-- One inner file pass of by-name function lookup as the spec words it,
for a single known function id. -/
def function_by_name_first (parse : String → Option FunctionRow)
    (function_id function_name_only : String) (less_strict : Bool)
    (lines : List String) : Option FunctionRow :=
  lines.findSome? (fun row =>
    if strContains row function_id then
      match parse row with
      | some d =>
        if stripQuotes d.function_name == function_name_only
            || (less_strict && strContains (stripQuotes d.function_name) function_name_only) then
          some d
        else none
      | none => none
    else none)

/-- One pass of by-name function lookup over the known functions, as the
spec words it: the first known function whose id-filtered file pass hits. -/
def function_by_name_pass {α : Type} (parse : String → Option FunctionRow)
    (function_name_only : String) (less_strict : Bool) (fid : α → String)
    (lines : List String) (ks : List α) : Option (FunctionRow × α) :=
  ks.findSome? (fun k =>
    (function_by_name_first parse (fid k) function_name_only less_strict lines).map
      (fun d => (d, k)))

/-- The id-matching pass of the caller walker as the spec words it. -/
def caller_first_match (parse : String → Option FunctionRow) (caller_id : String)
    (lines : List String) : Option FunctionRow :=
  lines.findSome? (fun row =>
    if strContains row caller_id then
      match parse row with
      | some d => if pyStrip (stripQuotes d.function_id) == caller_id then some d else none
      | none => none
    else none)

/-- A row of the function tree is benign for a by-line query when it cannot
make `int()` raise: whenever it passes the raw-text prefilter, parses, and
has non-empty `start_line`/`end_line` fields, both fields parse as
integers. -/
def flRowOk (parse : String → Option FunctionRow) (file : String) (row : String) : Bool :=
  if strContains row file then
    match parse row with
    | none => true
    | some d =>
      if d.start_line == "" || d.end_line == "" then true
      else (pyInt? d.start_line).isSome && (pyInt? d.end_line).isSome
  else true

/-- The by-line lookup as the spec words it: the first row in file order
whose raw text contains the queried file and whose parsed line range
contains the queried line. -/
def function_by_line_first (parse : String → Option FunctionRow) (file : String)
    (line : Int) (lines : List String) : Option FunctionRow :=
  lines.findSome? (fun row =>
    if strContains row file then
      match parse row with
      | some d =>
        match pyInt? d.start_line, pyInt? d.end_line with
        | some s, some e => if s ≤ line ∧ line ≤ e then some d else none
        | _, _ => none
      | none => none
    else none)

/-!
Concrete fixtures used to instantiate the theorems below: tiny tables,
parsers defined by the row they recognize, and filesystems defined by the
path they serve.
-/

/-- A filesystem on which every table exists and is empty. -/
def fsEmpty : FS := fun _ => .ok []

/-- A filesystem on which no file exists. -/
def fsMissing : FS := fun _ => .error .fileNotFound

/-- A parser accepting no row. -/
def noParseM : String → Option MacroRow := fun _ => none

/-- A parser accepting no row. -/
def noParseG : String → Option GlobalVarRow := fun _ => none

/-- A parser accepting no row. -/
def noParseC : String → Option ClassRow := fun _ => none

/-- A parser accepting no row. -/
def noParseF : String → Option FunctionRow := fun _ => none

/-- Raw FunctionTree row: `net.c` function covering lines 1-10. -/
def fblRow1 : String := "\"f1\",\"/net.c\",\"1\",\"id1\",\"10\",\"c1\""

/-- Raw FunctionTree row: `net.c` function covering lines 5-15. -/
def fblRow2 : String := "\"f2\",\"/net.c\",\"5\",\"id2\",\"15\",\"c2\""

/-- Parsed record of `fblRow1`. -/
def fblRec1 : FunctionRow :=
  ⟨"\"f1\"", "\"/net.c\"", "1", "id1", "10", "c1"⟩

/-- Parsed record of `fblRow2`. -/
def fblRec2 : FunctionRow :=
  ⟨"\"f2\"", "\"/net.c\"", "5", "id2", "15", "c2"⟩

/-- Parser recognizing the two fbl rows. -/
def fblParse : String → Option FunctionRow := fun row =>
  if row = fblRow1 then some fblRec1
  else if row = fblRow2 then some fblRec2
  else none

/-- Filesystem holding the two-row overlapping-range function tree. -/
def fblFS : FS := fun p =>
  if p = "tree" then .ok [fblRow1, fblRow2] else .error .fileNotFound

/-- Raw Macros row whose stored name is the quoted `bar`. -/
def c3Row : String := "\"bar\",\"BODY\""

/-- Parsed record of `c3Row`: the stored name keeps its quotes. -/
def c3Rec : MacroRow := ⟨"\"bar\"", "\"BODY\""⟩

/-- Parser recognizing `c3Row`. -/
def c3Parse : String → Option MacroRow := fun row =>
  if row = c3Row then some c3Rec else none

/-- Filesystem whose macro table is the single row `c3Row`. -/
def c3FS : FS := fun p =>
  if p = pathJoin "db" "Macros.csv" then .ok [c3Row] else .error .fileNotFound

/-- Raw FunctionTree row for `src/foo.c` lines 40-50; its text contains
`src/foo.c` but not `/src/foo.c`. -/
def c4Row : String := "f,src/foo.c,40,id9,50,c9"

/-- Parsed record of `c4Row`. -/
def c4Rec : FunctionRow := ⟨"f", "src/foo.c", "40", "id9", "50", "c9"⟩

/-- Parser recognizing `c4Row`. -/
def c4Parse : String → Option FunctionRow := fun row =>
  if row = c4Row then some c4Rec else none

/-- Filesystem holding the single-row function tree `c4Row`. -/
def c4FS : FS := fun p =>
  if p = "tree" then .ok [c4Row] else .error .fileNotFound

/-- A function whose caller_id is the encoded fallback
`"/src/foo.c":42` (with literal quote characters). -/
def c4Fn : FunctionRow := ⟨"g", "src/bar.c", "1", "id1", "9", "\"/src/foo.c\":42"⟩

/-- Raw Macros row with a quoted stored name, search target `bar`. -/
def c5Row : String := "\"bar\",\"B\""

/-- Parsed record of `c5Row`: quotes intact in the stored fields. -/
def c5Rec : MacroRow := ⟨"\"bar\"", "\"B\""⟩

/-- Parser recognizing `c5Row`. -/
def c5Parse : String → Option MacroRow := fun row =>
  if row = c5Row then some c5Rec else none

/-- Filesystem whose macro table is `[c5Row]` and whose other tables are
empty. -/
def c5FS : FS := fun p =>
  if p = pathJoin "db" "Macros.csv" then .ok [c5Row] else .ok []

/-- An archive reader returning a fixed four-line file for every entry. -/
def c7Zip : String → String → String := fun _ _ => "l1\nl2\nl3\nl4"

/-- A function record spanning lines 2-3 of the quoted file `"/a.c"`. -/
def c7Fn : FunctionRow := ⟨"f", "\"/a.c\"", "2", "id7", "3", "c7"⟩

/-- Spec section 4.4: each snippet line prefixed by its absolute line
number, the numbers increasing by one from the given start. -/
def numbered_lines_spec (n : Int) : List String → List String
  | [] => []
  | t :: rest => (toString n ++ ": " ++ t) :: numbered_lines_spec (n + 1) rest

theorem get_macro_scan_eq_first (parse : String → Option MacroRow) (name : String)
    (ls : Bool) (lines : List String) :
    get_macro_scan parse name ls lines = macro_first_match parse name ls lines := by
  induction lines with
  | nil => rfl
  | cons row rest ih =>
    simp only [get_macro_scan, macro_first_match, List.findSome?]
    cases h1 : strContains row name with
    | false => simpa [h1, macro_first_match] using ih
    | true =>
      cases hp : parse row with
      | none => simpa [h1, hp, macro_first_match] using ih
      | some d =>
        cases h2 : (stripQuotes d.macro_name == name
            || (ls && strContains (stripQuotes d.macro_name) name)) with
        | false => simpa [h1, hp, h2, macro_first_match] using ih
        | true => simp [h1, hp, h2]

theorem get_macro_scan_some {parse : String → Option MacroRow} {name : String}
    {ls : Bool} {lines : List String} {d : MacroRow}
    (h : get_macro_scan parse name ls lines = some d) :
    ∃ raw ∈ lines, parse raw = some d ∧
      (stripQuotes d.macro_name == name
        || (ls && strContains (stripQuotes d.macro_name) name)) = true := by
  rw [get_macro_scan_eq_first] at h
  obtain ⟨raw, hmem, hf⟩ := List.exists_of_findSome?_eq_some h
  refine ⟨raw, hmem, ?_⟩
  split at hf
  · split at hf
    · rename_i d0 hp
      split at hf
      · rename_i h2
        cases hf
        exact ⟨hp, h2⟩
      · exact absurd hf (by simp)
    · exact absurd hf (by simp)
  · exact absurd hf (by simp)

theorem get_global_var_scan_eq_first (parse : String → Option GlobalVarRow) (name : String)
    (ls : Bool) (lines : List String) :
    get_global_var_scan parse name ls lines = global_var_first_match parse name ls lines := by
  induction lines with
  | nil => rfl
  | cons row rest ih =>
    simp only [get_global_var_scan, global_var_first_match, List.findSome?]
    cases h1 : strContains row name with
    | false => simpa [h1, global_var_first_match] using ih
    | true =>
      cases hp : parse row with
      | none => simpa [h1, hp, global_var_first_match] using ih
      | some d =>
        cases h2 : (stripQuotes d.global_var_name == name
            || (ls && strContains (stripQuotes d.global_var_name) name)) with
        | false => simpa [h1, hp, h2, global_var_first_match] using ih
        | true => simp [h1, hp, h2]

theorem get_global_var_scan_some {parse : String → Option GlobalVarRow} {name : String}
    {ls : Bool} {lines : List String} {d : GlobalVarRow}
    (h : get_global_var_scan parse name ls lines = some d) :
    ∃ raw ∈ lines, parse raw = some d ∧
      (stripQuotes d.global_var_name == name
        || (ls && strContains (stripQuotes d.global_var_name) name)) = true := by
  rw [get_global_var_scan_eq_first] at h
  obtain ⟨raw, hmem, hf⟩ := List.exists_of_findSome?_eq_some h
  refine ⟨raw, hmem, ?_⟩
  split at hf
  · split at hf
    · rename_i d0 hp
      split at hf
      · rename_i h2
        cases hf
        exact ⟨hp, h2⟩
      · exact absurd hf (by simp)
    · exact absurd hf (by simp)
  · exact absurd hf (by simp)

theorem get_class_scan_eq_first (parse : String → Option ClassRow) (name : String)
    (ls : Bool) (lines : List String) :
    get_class_scan parse name ls lines = class_first_match parse name ls lines := by
  induction lines with
  | nil => rfl
  | cons row rest ih =>
    simp only [get_class_scan, class_first_match, List.findSome?]
    cases h1 : strContains row name with
    | false => simpa [h1, class_first_match] using ih
    | true =>
      cases hp : parse row with
      | none => simpa [h1, hp, class_first_match] using ih
      | some d =>
        cases h2 : (stripQuotes d.class_name == name
            || stripQuotes d.simple_name == name
            || (ls && strContains (stripQuotes d.class_name) name)
            || (ls && strContains (stripQuotes d.simple_name) name)) with
        | false => simpa [h1, hp, h2, class_first_match] using ih
        | true => simp [h1, hp, h2]

theorem get_class_scan_some {parse : String → Option ClassRow} {name : String}
    {ls : Bool} {lines : List String} {d : ClassRow}
    (h : get_class_scan parse name ls lines = some d) :
    ∃ raw ∈ lines, parse raw = some d ∧
      (stripQuotes d.class_name == name
        || stripQuotes d.simple_name == name
        || (ls && strContains (stripQuotes d.class_name) name)
        || (ls && strContains (stripQuotes d.simple_name) name)) = true := by
  rw [get_class_scan_eq_first] at h
  obtain ⟨raw, hmem, hf⟩ := List.exists_of_findSome?_eq_some h
  refine ⟨raw, hmem, ?_⟩
  split at hf
  · split at hf
    · rename_i d0 hp
      split at hf
      · rename_i h2
        cases hf
        exact ⟨hp, h2⟩
      · exact absurd hf (by simp)
    · exact absurd hf (by simp)
  · exact absurd hf (by simp)

theorem get_function_by_name_scan_eq_first (parse : String → Option FunctionRow)
    (function_id name : String) (ls : Bool) (lines : List String) :
    get_function_by_name_scan parse function_id name ls lines
      = function_by_name_first parse function_id name ls lines := by
  induction lines with
  | nil => rfl
  | cons row rest ih =>
    simp only [get_function_by_name_scan, function_by_name_first, List.findSome?]
    cases h1 : strContains row function_id with
    | false => simpa [h1, function_by_name_first] using ih
    | true =>
      cases hp : parse row with
      | none => simpa [h1, hp, function_by_name_first] using ih
      | some d =>
        cases h2 : (stripQuotes d.function_name == name
            || (ls && strContains (stripQuotes d.function_name) name)) with
        | false => simpa [h1, hp, h2, function_by_name_first] using ih
        | true => simp [h1, hp, h2]

theorem get_function_by_name_scan_some {parse : String → Option FunctionRow}
    {function_id name : String} {ls : Bool} {lines : List String} {d : FunctionRow}
    (h : get_function_by_name_scan parse function_id name ls lines = some d) :
    ∃ raw ∈ lines, parse raw = some d ∧
      (stripQuotes d.function_name == name
        || (ls && strContains (stripQuotes d.function_name) name)) = true := by
  rw [get_function_by_name_scan_eq_first] at h
  obtain ⟨raw, hmem, hf⟩ := List.exists_of_findSome?_eq_some h
  refine ⟨raw, hmem, ?_⟩
  split at hf
  · split at hf
    · rename_i d0 hp
      split at hf
      · rename_i h2
        cases hf
        exact ⟨hp, h2⟩
      · exact absurd hf (by simp)
    · exact absurd hf (by simp)
  · exact absurd hf (by simp)

theorem get_function_by_name_loop_eq_pass {α : Type} (fs : FS)
    (parse : String → Option FunctionRow) (tf name : String) (ls : Bool)
    (fid : α → String) (lines : List String) (h : fs tf = .ok lines)
    (ks : List α) :
    get_function_by_name_loop fs parse tf name ls fid ks
      = .ok (function_by_name_pass parse name ls fid lines ks) := by
  induction ks with
  | nil => rfl
  | cons k rest ih =>
    simp only [get_function_by_name_loop, function_by_name_pass, List.findSome?, h,
      get_function_by_name_scan_eq_first]
    cases hf : function_by_name_first parse (fid k) name ls lines with
    | none => simpa [hf, function_by_name_pass] using ih
    | some d => simp [hf]

theorem get_caller_scan_eq_first (parse : String → Option FunctionRow) (caller_id : String)
    (lines : List String) :
    get_caller_scan parse caller_id lines = caller_first_match parse caller_id lines := by
  induction lines with
  | nil => rfl
  | cons row rest ih =>
    simp only [get_caller_scan, caller_first_match, List.findSome?]
    cases h1 : strContains row caller_id with
    | false => simpa [h1, caller_first_match] using ih
    | true =>
      cases hp : parse row with
      | none => simpa [h1, hp, caller_first_match] using ih
      | some d =>
        cases h2 : (pyStrip (stripQuotes d.function_id) == caller_id) with
        | false => simpa [h1, hp, h2, caller_first_match] using ih
        | true => simp [h1, hp, h2]

theorem pyInt?_empty : pyInt? "" = none := rfl

theorem get_function_by_line_scan_eq_first (parse : String → Option FunctionRow)
    (file : String) (line : Int) (lines : List String)
    (hwf : ∀ row ∈ lines, flRowOk parse file row = true) :
    get_function_by_line_scan parse file line lines
      = .ok (function_by_line_first parse file line lines) := by
  induction lines with
  | nil => rfl
  | cons row rest ih =>
    have hhead := hwf row (List.mem_cons_self row rest)
    have htail := ih (fun r hr => hwf r (List.mem_cons_of_mem _ hr))
    simp only [get_function_by_line_scan, function_by_line_first, List.findSome?]
    cases h1 : strContains row file with
    | false => simpa [h1, function_by_line_first] using htail
    | true =>
      cases hp : parse row with
      | none => simpa [h1, hp, function_by_line_first] using htail
      | some d =>
        simp only [flRowOk, h1, hp, if_pos] at hhead
        by_cases hs : d.start_line = ""
        · have h2 : ¬(d.start_line ≠ "" ∧ d.end_line ≠ "") := by tauto
          have hnone : pyInt? d.start_line = none := by rw [hs]; exact pyInt?_empty
          simpa [h1, hp, h2, hnone, function_by_line_first] using htail
        · by_cases he : d.end_line = ""
          · have h2 : ¬(d.start_line ≠ "" ∧ d.end_line ≠ "") := by tauto
            have hnone : pyInt? d.end_line = none := by rw [he]; exact pyInt?_empty
            cases hps : pyInt? d.start_line with
            | none => simpa [h1, hp, h2, hps, hnone, function_by_line_first] using htail
            | some s => simpa [h1, hp, h2, hps, hnone, function_by_line_first] using htail
          · have h2 : d.start_line ≠ "" ∧ d.end_line ≠ "" := ⟨hs, he⟩
            have hboth : (pyInt? d.start_line).isSome ∧ (pyInt? d.end_line).isSome := by
              rw [if_neg (by simp [hs, he])] at hhead
              exact ⟨(Bool.and_eq_true _ _ |>.mp hhead).1, (Bool.and_eq_true _ _ |>.mp hhead).2⟩
            obtain ⟨s, hps⟩ := Option.isSome_iff_exists.mp hboth.1
            obtain ⟨e, hpe⟩ := Option.isSome_iff_exists.mp hboth.2
            by_cases hr : s ≤ line ∧ line ≤ e
            · simp [h1, hp, h2, hps, hpe, hr]
            · simpa [h1, hp, h2, hps, hpe, hr, function_by_line_first] using htail

theorem get_macro_true_eq (fs : FS) (pm : String → Option MacroRow)
    (db name : String) (lines : List String)
    (h : fs (pathJoin db "Macros.csv") = .ok lines) :
    get_macro fs pm db name true =
      match get_macro_scan pm name true lines with
      | some d => .ok (.inr d)
      | none => .ok (.inl (macro_not_found_msg name)) := by
  simp only [ get_macro, get_macro_final, get_macro_once, h, if_pos]
  cases get_macro_scan pm name true lines <;> rfl

theorem get_macro_false_eq (fs : FS) (pm : String → Option MacroRow)
    (db name : String) (lines : List String)
    (h : fs (pathJoin db "Macros.csv") = .ok lines) :
    get_macro fs pm db name false =
      match get_macro_scan pm name false lines with
      | some d => .ok (.inr d)
      | none =>
        match get_macro_scan pm name true lines with
        | some d => .ok (.inr d)
        | none => .ok (.inl (macro_not_found_msg name)) := by
  simp only [ get_macro, get_macro_final, get_macro_once, h, Bool.false_eq_true, if_false]
  cases get_macro_scan pm name false lines <;>
    cases get_macro_scan pm name true lines <;> rfl

theorem get_global_var_true_eq (fs : FS) (pg : String → Option GlobalVarRow)
    (db name : String) (lines : List String)
    (h : fs (pathJoin db "GlobalVars.csv") = .ok lines) :
    get_global_var fs pg db name true =
      match get_global_var_scan pg (lastSegment name) true lines with
      | some d => .ok (.inr d)
      | none => .ok (.inl (global_var_not_found_msg name)) := by
  simp only [get_global_var, get_global_var_final, get_global_var_once, h, if_pos]
  cases get_global_var_scan pg (lastSegment name) true lines <;> rfl

theorem get_global_var_false_eq (fs : FS) (pg : String → Option GlobalVarRow)
    (db name : String) (lines : List String)
    (h : fs (pathJoin db "GlobalVars.csv") = .ok lines) :
    get_global_var fs pg db name false =
      match get_global_var_scan pg (lastSegment name) false lines with
      | some d => .ok (.inr d)
      | none =>
        match get_global_var_scan pg (lastSegment name) true lines with
        | some d => .ok (.inr d)
        | none => .ok (.inl (global_var_not_found_msg name)) := by
  simp only [get_global_var, get_global_var_final, get_global_var_once, h,
    Bool.false_eq_true, if_false]
  cases get_global_var_scan pg (lastSegment name) false lines <;>
    cases get_global_var_scan pg (lastSegment name) true lines <;> rfl

theorem get_class_true_eq (fs : FS) (pc : String → Option ClassRow)
    (db name : String) (lines : List String)
    (h : fs (pathJoin db "Classes.csv") = .ok lines) :
    get_class fs pc db name true =
      match get_class_scan pc (lastSegment name) true lines with
      | some d => .ok (.inr d)
      | none => .ok (.inl (class_not_found_msg name)) := by
  simp only [get_class, get_class_final, get_class_once, h, if_pos]
  cases get_class_scan pc (lastSegment name) true lines <;> rfl

theorem get_class_false_eq (fs : FS) (pc : String → Option ClassRow)
    (db name : String) (lines : List String)
    (h : fs (pathJoin db "Classes.csv") = .ok lines) :
    get_class fs pc db name false =
      match get_class_scan pc (lastSegment name) false lines with
      | some d => .ok (.inr d)
      | none =>
        match get_class_scan pc (lastSegment name) true lines with
        | some d => .ok (.inr d)
        | none => .ok (.inl (class_not_found_msg name)) := by
  simp only [get_class, get_class_final, get_class_once, h, Bool.false_eq_true, if_false]
  cases get_class_scan pc (lastSegment name) false lines <;>
    cases get_class_scan pc (lastSegment name) true lines <;> rfl

theorem get_function_by_name_true_eq {α : Type} (fs : FS)
    (pf : String → Option FunctionRow) (tf fname : String) (fid : α → String)
    (ks : List α) (lines : List String) (h : fs tf = .ok lines) :
    get_function_by_name fs pf tf fname fid ks true =
      match function_by_name_pass pf (lastSegment fname) true fid lines ks with
      | some dk => .ok (.inr dk.1, some dk.2)
      | none => .ok (.inl (function_not_found_msg fname), none) := by
  simp only [get_function_by_name, get_function_by_name_final, if_pos,
    get_function_by_name_loop_eq_pass fs pf tf (lastSegment fname) true fid lines h ks]
  cases hx : function_by_name_pass pf (lastSegment fname) true fid lines ks with
  | none => rfl
  | some dk => rfl

theorem get_function_by_name_false_eq {α : Type} (fs : FS)
    (pf : String → Option FunctionRow) (tf fname : String) (fid : α → String)
    (ks : List α) (lines : List String) (h : fs tf = .ok lines) :
    get_function_by_name fs pf tf fname fid ks false =
      match function_by_name_pass pf (lastSegment fname) false fid lines ks with
      | some dk => .ok (.inr dk.1, some dk.2)
      | none =>
        match function_by_name_pass pf (lastSegment fname) true fid lines ks with
        | some dk => .ok (.inr dk.1, some dk.2)
        | none => .ok (.inl (function_not_found_msg fname), none) := by
  simp only [get_function_by_name, get_function_by_name_final, Bool.false_eq_true, if_false,
    get_function_by_name_loop_eq_pass fs pf tf (lastSegment fname) false fid lines h ks,
    get_function_by_name_loop_eq_pass fs pf tf (lastSegment fname) true fid lines h ks]
  cases hx : function_by_name_pass pf (lastSegment fname) false fid lines ks with
  | none =>
    cases hy : function_by_name_pass pf (lastSegment fname) true fid lines ks with
    | none => rfl
    | some dk => rfl
  | some dk => rfl

/-- C1: with fallback disabled, every name resolver ( get_macro,
get_global_var, get_class, get_function_by_name) is exactly a strict
exact-match first-match pass over the whole table followed, only when that
pass found nothing, by a single substring-fallback first-match pass; the
strict pass's first exact-name row is returned without the fallback being
considered, and no call performs more than these two passes. -/
theorem resolvers_two_phase {α : Type} (fs : FS)
    (pm : String → Option MacroRow) (pg : String → Option GlobalVarRow)
    (pc : String → Option ClassRow) (pf : String → Option FunctionRow)
    (db name tf fname : String) (fid : α → String) (ks : List α)
    (mlines glines clines flines : List String)
    (hm : fs (pathJoin db "Macros.csv") = .ok mlines)
    (hg : fs (pathJoin db "GlobalVars.csv") = .ok glines)
    (hc : fs (pathJoin db "Classes.csv") = .ok clines)
    (hf : fs tf = .ok flines) :
    ( get_macro fs pm db name false =
      match macro_first_match pm name false mlines with
      | some d => .ok (.inr d)
      | none =>
        match macro_first_match pm name true mlines with
        | some d => .ok (.inr d)
        | none => .ok (.inl (macro_not_found_msg name)))
    ∧ (get_global_var fs pg db name false =
      match global_var_first_match pg (lastSegment name) false glines with
      | some d => .ok (.inr d)
      | none =>
        match global_var_first_match pg (lastSegment name) true glines with
        | some d => .ok (.inr d)
        | none => .ok (.inl (global_var_not_found_msg name)))
    ∧ (get_class fs pc db name false =
      match class_first_match pc (lastSegment name) false clines with
      | some d => .ok (.inr d)
      | none =>
        match class_first_match pc (lastSegment name) true clines with
        | some d => .ok (.inr d)
        | none => .ok (.inl (class_not_found_msg name)))
    ∧ (get_function_by_name fs pf tf fname fid ks false =
      match function_by_name_pass pf (lastSegment fname) false fid flines ks with
      | some dk => .ok (.inr dk.1, some dk.2)
      | none =>
        match function_by_name_pass pf (lastSegment fname) true fid flines ks with
        | some dk => .ok (.inr dk.1, some dk.2)
        | none => .ok (.inl (function_not_found_msg fname), none)) := by
  refine ⟨?_, ?_, ?_, ?_⟩
  · rw [get_macro_false_eq fs pm db name mlines hm]
    simp only [get_macro_scan_eq_first]
  · rw [get_global_var_false_eq fs pg db name glines hg]
    simp only [get_global_var_scan_eq_first]
  · rw [get_class_false_eq fs pc db name clines hc]
    simp only [get_class_scan_eq_first]
  · exact get_function_by_name_false_eq fs pf tf fname fid ks flines hf

/-- C1 witness: the two-pass shape instantiated on empty tables. -/
theorem resolvers_two_phase_witness :
    get_macro fsEmpty noParseM "db" "N" false = .ok (.inl (macro_not_found_msg "N"))
    ∧ get_global_var fsEmpty noParseG "db" "N" false
        = .ok (.inl (global_var_not_found_msg "N"))
    ∧ get_class fsEmpty noParseC "db" "N" false = .ok (.inl (class_not_found_msg "N"))
    ∧ get_function_by_name fsEmpty noParseF "tree" "N" (fun _ : Unit => "") [] false
        = .ok (.inl (function_not_found_msg "N"), none) :=
  resolvers_two_phase (α := Unit) fsEmpty noParseM noParseG noParseC noParseF
    "db" "N" "tree" "N" (fun _ => "") [] [] [] [] [] rfl rfl rfl rfl

/-- C2: get_function_by_line returns the first row in file order whose raw
text contains the queried file as a substring and whose parsed line range
contains the queried line, in a single pass with no fallback, and an absent
value when no row satisfies the predicate; stated for every table on which
`int()` cannot raise on a candidate row. -/
theorem get_function_by_line_first_match (fs : FS)
    (parse : String → Option FunctionRow) (tf file : String) (line : Int)
    (lines : List String) (h : fs tf = .ok lines)
    (hwf : ∀ row ∈ lines, flRowOk parse file row = true) :
    get_function_by_line fs parse tf file line
      = .ok (function_by_line_first parse file line lines) := by
  simp only [get_function_by_line, h]
  exact get_function_by_line_scan_eq_first parse file line lines hwf

/-- C2 witness: with two rows for `net.c` covering [1,10] and [5,15], the
query for line 7 returns the [1,10] row; a file matching nothing gives an
absent result. -/
theorem get_function_by_line_first_match_witness :
    get_function_by_line fblFS fblParse "tree" "net.c" 7 = .ok (some fblRec1)
    ∧ get_function_by_line fblFS fblParse "tree" "absent.c" 7 = .ok none := by
  constructor
  · have h := get_function_by_line_first_match fblFS fblParse "tree" "net.c" 7
      [fblRow1, fblRow2] rfl (by decide)
    rw [h]; decide
  · have h := get_function_by_line_first_match fblFS fblParse "tree" "absent.c" 7
      [fblRow1, fblRow2] rfl (by decide)
    rw [h]; decide

/-- C3 counterexample: get_macro performs no namespace stripping.  With a
macro table holding exactly one row whose quote-stripped stored name is
`bar`, searching `Foo::bar` returns the not-found string instead of that
row, even though the trailing segment of `Foo::bar` is `bar` and searching
`bar` itself finds the row. -/
theorem macro_namespace_strip_cex :
    get_macro c3FS c3Parse "db" "Foo::bar" false
        = .ok (.inl (macro_not_found_msg "Foo::bar"))
    ∧ c3Parse c3Row = some c3Rec
    ∧ stripQuotes c3Rec.macro_name = "bar"
    ∧ lastSegment "Foo::bar" = "bar"
    ∧ get_macro c3FS c3Parse "db" "bar" false = .ok (.inr c3Rec) := by
  refine ⟨by decide, by decide, by decide, by decide, by decide⟩

/-- C3 (amended): macro lookup matches on the full, unstripped search term:
any record a get_macro call returns has a quote-stripped stored name that
equals the full search term or contains it as a substring; the namespace
qualifier is never stripped. -/
theorem get_macro_matches_unstripped_name (fs : FS) (pm : String → Option MacroRow)
    (db name : String) (b : Bool) (lines : List String) (d : MacroRow)
    (h : fs (pathJoin db "Macros.csv") = .ok lines)
    (hr : get_macro fs pm db name b = .ok (.inr d)) :
    stripQuotes d.macro_name = name ∨ strContains (stripQuotes d.macro_name) name = true := by
  have key : ∀ ls : Bool, get_macro_scan pm name ls lines = some d →
      stripQuotes d.macro_name = name
        ∨ strContains (stripQuotes d.macro_name) name = true := by
    intro ls hs
    obtain ⟨raw, hmem, hparse, hpred⟩ := get_macro_scan_some hs
    rcases (Bool.or_eq_true _ _).mp hpred with h' | h'
    · exact Or.inl (by simpa using h')
    · exact Or.inr ((Bool.and_eq_true _ _).mp h').2
  cases b with
  | true =>
    rw [get_macro_true_eq fs pm db name lines h] at hr
    split at hr
    · rename_i hx
      cases hr
      exact key true hx
    · exact absurd hr (by simp)
  | false =>
    rw [get_macro_false_eq fs pm db name lines h] at hr
    split at hr
    · rename_i hx
      cases hr
      exact key false hx
    · split at hr
      · rename_i hy
        cases hr
        exact key true hy
      · exact absurd hr (by simp)

/-- C3 witness: the amended property at the single-row quoted-name table. -/
theorem get_macro_matches_unstripped_name_witness :
    stripQuotes c3Rec.macro_name = "bar"
      ∨ strContains (stripQuotes c3Rec.macro_name) "bar" = true :=
  get_macro_matches_unstripped_name c3FS c3Parse "db" "bar" false [c3Row] c3Rec
    (by decide) (by decide)

/-- C4 counterexample: in the caller fallback the quote characters are
removed from caller_id before the colon split, so the character dropped
from the file part is the leading path marker `/`, not a quote.  On a table
whose row mentions `src/foo.c` but never `/src/foo.c`, the code resolves
caller_id `"/src/foo.c":42` to that row, while a by-line lookup with the
claim's decoded file part `/src/foo.c` finds nothing. -/
theorem caller_decode_cex :
    get_caller_function c4FS c4Parse "tree" c4Fn = .ok (.inr c4Rec)
    ∧ pyStrip (stripQuotes c4Fn.caller_id) = "/src/foo.c:42"
    ∧ pySplit "/src/foo.c:42" ":" = ["/src/foo.c", "42"]
    ∧ "/src/foo.c".drop 1 = "src/foo.c"
    ∧ get_function_by_line c4FS c4Parse "tree" "/src/foo.c" 42 = .ok none := by
  refine ⟨by decide, by decide, by decide, by decide, by decide⟩

/-- C4 (amended): when the id scan misses, caller_id — already
quote-stripped and whitespace-stripped — is split on colons; when that
yields exactly two parts whose second parses as an integer, the first
character of the (already unquoted) file part is dropped and the lookup
delegates to get_function_by_line with that file and line. -/
theorem get_caller_function_fallback_decode (fs : FS)
    (parse : String → Option FunctionRow) (tf : String) (fn : FunctionRow)
    (lines : List String) (file_part line_part : String) (n : Int)
    (h : fs tf = .ok lines)
    (hmiss : get_caller_scan parse (pyStrip (stripQuotes fn.caller_id)) lines = none)
    (hsplit : pySplit (pyStrip (stripQuotes fn.caller_id)) ":" = [file_part, line_part])
    (hn : pyInt? line_part = some n) :
    get_caller_function fs parse tf fn =
      match get_function_by_line fs parse tf (file_part.drop 1) n with
      | .error e => .error e
      | .ok (some f) => .ok (.inr f)
      | .ok none => .ok (.inl caller_not_found_msg) := by
  simp only [get_caller_function, h, hmiss, hsplit, hn, get_function_by_line]

/-- C4 witness: the amended decoding applied to caller_id
`"/src/foo.c":42`, whose delegated file argument is `src/foo.c`. -/
theorem get_caller_function_fallback_decode_witness :
    get_caller_function c4FS c4Parse "tree" c4Fn =
      match get_function_by_line c4FS c4Parse "tree" ("/src/foo.c".drop 1) 42 with
      | .error e => .error e
      | .ok (some f) => .ok (.inr f)
      | .ok none => .ok (.inl caller_not_found_msg) :=
  get_caller_function_fallback_decode c4FS c4Parse "tree" c4Fn [c4Row]
    "/src/foo.c" "42" 42 (by decide) (by decide) (by decide) (by decide)

theorem function_by_name_pass_some {α : Type} {pf : String → Option FunctionRow}
    {fname_only : String} {ls : Bool} {fid : α → String} {lines : List String}
    {ks : List α} {d : FunctionRow} {k : α}
    (h : function_by_name_pass pf fname_only ls fid lines ks = some (d, k)) :
    ∃ raw ∈ lines, pf raw = some d := by
  obtain ⟨k1, hk1, hmap⟩ := List.exists_of_findSome?_eq_some h
  cases hfm : function_by_name_first pf (fid k1) fname_only ls lines with
  | none => rw [hfm] at hmap; exact absurd hmap (by simp)
  | some dd =>
    rw [hfm] at hmap
    simp only [Option.map_some', Option.some.injEq, Prod.mk.injEq] at hmap
    obtain ⟨hdd, hkk⟩ := hmap
    subst hdd
    rw [← get_function_by_name_scan_eq_first] at hfm
    obtain ⟨raw, hmem, hp, _⟩ := get_function_by_name_scan_some hfm
    exact ⟨raw, hmem, hp⟩

/-- C5: quote stripping happens only inside the comparison.  Any record
returned by a name resolver is literally the parser's output for some table
row, with every field's original (possibly quoted) text unmodified; and a
record whose stored name carries literal quotes is matched by the unquoted
search term and returned with the quotes intact. -/
theorem resolvers_preserve_record_text {α : Type} (fs : FS)
    (pm : String → Option MacroRow) (pg : String → Option GlobalVarRow)
    (pc : String → Option ClassRow) (pf : String → Option FunctionRow)
    (db name tf fname : String) (b : Bool) (fid : α → String) (ks : List α)
    (mlines glines clines flines : List String)
    (hm : fs (pathJoin db "Macros.csv") = .ok mlines)
    (hg : fs (pathJoin db "GlobalVars.csv") = .ok glines)
    (hc : fs (pathJoin db "Classes.csv") = .ok clines)
    (hfl : fs tf = .ok flines) :
    (∀ d, get_macro fs pm db name b = .ok (.inr d) → ∃ raw ∈ mlines, pm raw = some d)
    ∧ (∀ d, get_global_var fs pg db name b = .ok (.inr d) → ∃ raw ∈ glines, pg raw = some d)
    ∧ (∀ d, get_class fs pc db name b = .ok (.inr d) → ∃ raw ∈ clines, pc raw = some d)
    ∧ (∀ d k, get_function_by_name fs pf tf fname fid ks b = .ok (.inr d, some k) →
        ∃ raw ∈ flines, pf raw = some d)
    ∧ get_macro c5FS c5Parse "db" "bar" false = .ok (.inr c5Rec) := by
  refine ⟨?_, ?_, ?_, ?_, by decide⟩
  · intro d hr
    have key : ∀ ls : Bool, get_macro_scan pm name ls mlines = some d →
        ∃ raw ∈ mlines, pm raw = some d := by
      intro ls hs
      obtain ⟨raw, hmem, hp, _⟩ := get_macro_scan_some hs
      exact ⟨raw, hmem, hp⟩
    cases b with
    | true =>
      rw [get_macro_true_eq fs pm db name mlines hm] at hr
      split at hr
      · rename_i hx; cases hr; exact key true hx
      · exact absurd hr (by simp)
    | false =>
      rw [get_macro_false_eq fs pm db name mlines hm] at hr
      split at hr
      · rename_i hx; cases hr; exact key false hx
      · split at hr
        · rename_i hy; cases hr; exact key true hy
        · exact absurd hr (by simp)
  · intro d hr
    have key : ∀ ls : Bool, get_global_var_scan pg (lastSegment name) ls glines = some d →
        ∃ raw ∈ glines, pg raw = some d := by
      intro ls hs
      obtain ⟨raw, hmem, hp, _⟩ := get_global_var_scan_some hs
      exact ⟨raw, hmem, hp⟩
    cases b with
    | true =>
      rw [get_global_var_true_eq fs pg db name glines hg] at hr
      split at hr
      · rename_i hx; cases hr; exact key true hx
      · exact absurd hr (by simp)
    | false =>
      rw [get_global_var_false_eq fs pg db name glines hg] at hr
      split at hr
      · rename_i hx; cases hr; exact key false hx
      · split at hr
        · rename_i hy; cases hr; exact key true hy
        · exact absurd hr (by simp)
  · intro d hr
    have key : ∀ ls : Bool, get_class_scan pc (lastSegment name) ls clines = some d →
        ∃ raw ∈ clines, pc raw = some d := by
      intro ls hs
      obtain ⟨raw, hmem, hp, _⟩ := get_class_scan_some hs
      exact ⟨raw, hmem, hp⟩
    cases b with
    | true =>
      rw [get_class_true_eq fs pc db name clines hc] at hr
      split at hr
      · rename_i hx; cases hr; exact key true hx
      · exact absurd hr (by simp)
    | false =>
      rw [get_class_false_eq fs pc db name clines hc] at hr
      split at hr
      · rename_i hx; cases hr; exact key false hx
      · split at hr
        · rename_i hy; cases hr; exact key true hy
        · exact absurd hr (by simp)
  · intro d k hr
    cases b with
    | true =>
      rw [get_function_by_name_true_eq fs pf tf fname fid ks flines hfl] at hr
      split at hr
      · rename_i dk hx
        obtain ⟨d0, k0⟩ := dk
        cases hr
        exact function_by_name_pass_some hx
      · exact absurd hr (by simp)
    | false =>
      rw [get_function_by_name_false_eq fs pf tf fname fid ks flines hfl] at hr
      split at hr
      · rename_i dk hx
        obtain ⟨d0, k0⟩ := dk
        cases hr
        exact function_by_name_pass_some hx
      · split at hr
        · rename_i dk hy
          obtain ⟨d0, k0⟩ := dk
          cases hr
          exact function_by_name_pass_some hy
        · exact absurd hr (by simp)

/-- C5 witness: the quoted-name record returned for the unquoted search
term `bar` is exactly the parser's output for its table row. -/
theorem resolvers_preserve_record_text_witness :
    ∃ raw ∈ [c5Row], c5Parse raw = some c5Rec := by
  have h := resolvers_preserve_record_text (α := Unit) c5FS c5Parse noParseG noParseC
    noParseF "db" "bar" "tree" "F" false (fun _ => "") [] [c5Row] [] [] []
    (by decide) (by decide) (by decide) (by decide)
  exact h.1 c5Rec (by decide)

theorem numbered_lines_enumFrom (s : Int) (ls : List String) :
    ∀ k : Nat, (List.enumFrom k ls).map
        (fun p => toString (s + (p.1 : Int)) ++ ": " ++ p.2)
      = numbered_lines_spec (s + (k : Int)) ls := by
  induction ls with
  | nil => intro k; rfl
  | cons t rest ih =>
    intro k
    simp only [List.enumFrom, List.map, numbered_lines_spec, List.cons.injEq, true_and]
    rw [ih (k + 1)]
    congr 1
    push_cast
    ring

/-- C6: format_numbered_snippet is pure string formatting: a `file: <path>`
header line followed by each snippet line on its own line prefixed with its
absolute line number `start_line + index`; in particular on `a.c`, start 10
and lines x, y, z it yields `file: a.c\n10: x\n11: y\n12: z`. -/
theorem format_numbered_snippet_spec :
    (∀ (fp : String) (s : Int) (ls : List String),
      format_numbered_snippet fp s ls
        = "file: " ++ fp ++ "\n" ++ pyJoin "\n" (numbered_lines_spec s ls))
    ∧ format_numbered_snippet "a.c" 10 ["x", "y", "z"]
        = "file: a.c\n10: x\n11: y\n12: z" := by
  constructor
  · intro fp s ls
    have h := numbered_lines_enumFrom s ls 0
    rw [show s + ((0 : Nat) : Int) = s by simp] at h
    simp only [format_numbered_snippet, List.enum]
    rw [h]
  · decide

/-- C7: extract_function_lines_from_db reads the archive at the fixed path
`db_path/src.zip` under the key obtained from the function's file field by
stripping quotes and dropping its leading character, splits the entry's
text on line feeds, and returns that derived path, the start and end lines
as integers, and the full (not pre-sliced) line sequence.  The archive
reader is the spec-modelled external collaborator. -/
theorem extract_function_lines_spec (zipRead : String → String → String)
    (db_path : String) (fn : FunctionRow) (s e : Int)
    (hs : pyInt? fn.start_line = some s) (he : pyInt? fn.end_line = some e) :
    extract_function_lines_from_db zipRead db_path fn =
      .ok ((stripQuotes fn.file).drop 1, s, e,
        pySplit (zipRead (pathJoin db_path "src.zip") ((stripQuotes fn.file).drop 1)) "\n") := by
  simp only [extract_function_lines_from_db, hs, he]

/-- C7 witness: a function spanning lines 2-3 of the quoted file `"/a.c"`
yields key `a.c` and the whole four-line file, not the two-line slice. -/
theorem extract_function_lines_spec_witness :
    extract_function_lines_from_db c7Zip "db" c7Fn
      = .ok ("a.c", 2, 3, ["l1", "l2", "l3", "l4"]) := by
  have h := extract_function_lines_spec c7Zip "db" c7Fn 2 3 (by decide) (by decide)
  rw [h]; decide

/-- C8: a failed table open/read always surfaces as a raised typed error,
never a normal return; the conversion distinguishes exactly the three
conditions (file missing, permission denied, other OS failure) by pairwise
distinct messages, each carrying the file-type label and the path; and
every table-scanning entry point propagates it. -/
theorem table_scan_error_taxonomy {α : Type} (fs : FS) (e : FSErr)
    (pm : String → Option MacroRow) (pg : String → Option GlobalVarRow)
    (pc : String → Option ClassRow) (pf : String → Option FunctionRow)
    (db name tf fname : String) (line : Int) (fn : FunctionRow)
    (fid : α → String) (k : α) (ks : List α) (b : Bool)
    (hfs : ∀ p, fs p = .error e) :
    (∀ path label,
      convert_csv_file_error .fileNotFound path label
          ≠ convert_csv_file_error .permissionDenied path label
      ∧ convert_csv_file_error .fileNotFound path label
          ≠ convert_csv_file_error .osError path label
      ∧ convert_csv_file_error .permissionDenied path label
          ≠ convert_csv_file_error .osError path label)
    ∧ (∀ (e' : FSErr) (path label : String), ∃ a b' c,
        convert_csv_file_error e' path label = a ++ label ++ b' ++ path ++ c)
    ∧ get_macro fs pm db name b
        = .error (.codeQLError
            (convert_csv_file_error e (pathJoin db "Macros.csv") "Macros CSV"))
    ∧ get_global_var fs pg db name b
        = .error (.codeQLError
            (convert_csv_file_error e (pathJoin db "GlobalVars.csv") "GlobalVars CSV"))
    ∧ get_class fs pc db name b
        = .error (.codeQLError
            (convert_csv_file_error e (pathJoin db "Classes.csv") "Classes CSV"))
    ∧ get_function_by_line fs pf tf name line
        = .error (.codeQLError (convert_csv_file_error e tf "Function tree file"))
    ∧ get_function_by_name fs pf tf fname fid (k :: ks) b
        = .error (.codeQLError (convert_csv_file_error e tf "Function tree file"))
    ∧ get_caller_function fs pf tf fn
        = .error (.codeQLError (convert_csv_file_error e tf "Function tree file")) := by
  have e1 : (" not found: " : String).length = 12 := by decide
  have e2 : ("Permission denied reading " : String).length = 26 := by decide
  have e3 : (": " : String).length = 2 := by decide
  have e4 : ("OS error while reading " : String).length = 23 := by decide
  refine ⟨?_, ?_, ?_, ?_, ?_, ?_, ?_, ?_⟩
  · intro path label
    refine ⟨?_, ?_, ?_⟩ <;> intro hEq <;>
      have hl := congrArg String.length hEq <;>
      simp only [convert_csv_file_error, String.length_append] at hl <;>
      omega
  · intro e' path label
    cases e' with
    | fileNotFound =>
      refine ⟨"", " not found: ", "", ?_⟩
      simp [convert_csv_file_error, String.append_assoc]
    | permissionDenied =>
      refine ⟨"Permission denied reading ", ": ", "", ?_⟩
      simp [convert_csv_file_error, String.append_assoc]
    | osError =>
      refine ⟨"OS error while reading ", ": ", "", ?_⟩
      simp [convert_csv_file_error, String.append_assoc]
  · cases b <;> simp [ get_macro, get_macro_final, get_macro_once, hfs]
  · cases b <;> simp [get_global_var, get_global_var_final, get_global_var_once, hfs]
  · cases b <;> simp [get_class, get_class_final, get_class_once, hfs]
  · simp [get_function_by_line, hfs]
  · cases b <;>
      simp [get_function_by_name, get_function_by_name_final, get_function_by_name_loop, hfs]
  · simp [get_caller_function, hfs]

/-- C8 witness: a missing Macros.csv surfaces as the typed error whose
message carries the label and path. -/
theorem table_scan_error_taxonomy_witness :
    get_macro fsMissing noParseM "db" "N" false
      = .error (.codeQLError "Macros CSV not found: db/Macros.csv") := by
  have h := table_scan_error_taxonomy (α := Unit) fsMissing .fileNotFound noParseM
    noParseG noParseC noParseF "db" "N" "tree" "F" 1 c4Fn (fun _ => "") () [] false
    (fun _ => rfl)
  rw [h.2.2.1]; decide

/-- C9: when both matching phases exhaust without a hit, get_macro returns
a descriptive string as a normal value (not an error) that contains the
searched name and the words `not found`. -/
theorem get_macro_not_found_value (fs : FS) (pm : String → Option MacroRow)
    (db name : String) (lines : List String)
    (h : fs (pathJoin db "Macros.csv") = .ok lines)
    (h1 : get_macro_scan pm name false lines = none)
    (h2 : get_macro_scan pm name true lines = none) :
    get_macro fs pm db name false = .ok (.inl (macro_not_found_msg name))
    ∧ (∃ a b, macro_not_found_msg name = a ++ name ++ b)
    ∧ (∃ a b, macro_not_found_msg name = a ++ "not found" ++ b) := by
  refine ⟨?_, ?_, ?_⟩
  · rw [get_macro_false_eq fs pm db name lines h, h1, h2]
  · exact ⟨"Macro '",
      "' not found. Make sure you're using the correct tool with correct args.", rfl⟩
  · refine ⟨"Macro '" ++ name ++ "' ",
      ". Make sure you're using the correct tool with correct args.", ?_⟩
    have hlit :
        ("' not found. Make sure you're using the correct tool with correct args." : String)
          = "' " ++ ("not found"
              ++ ". Make sure you're using the correct tool with correct args.") := by decide
    simp only [macro_not_found_msg, String.append_assoc, hlit]

/-- C9 witness: the empty macro table and the name MAX_LEN. -/
theorem get_macro_not_found_value_witness :
    get_macro fsEmpty noParseM "db" "MAX_LEN" false
      = .ok (.inl (macro_not_found_msg "MAX_LEN"))
    ∧ (∃ a b, macro_not_found_msg "MAX_LEN" = a ++ "MAX_LEN" ++ b)
    ∧ (∃ a b, macro_not_found_msg "MAX_LEN" = a ++ "not found" ++ b) :=
  get_macro_not_found_value fsEmpty noParseM "db" "MAX_LEN" [] rfl rfl rfl

/-- C10: get_function_by_name with an empty known-function list returns the
not-found error string paired with an absent second component for every
filesystem — both passes iterate over nothing, so the function tree file is
never opened and no file-access error can arise even when it is missing. -/
theorem get_function_by_name_empty_known_list {α : Type} (fs : FS)
    (pf : String → Option FunctionRow) (tf fname : String) (fid : α → String) :
    get_function_by_name fs pf tf fname fid [] false
      = .ok (.inl (function_not_found_msg fname), none) := rfl

end Vulnhalla
